import Mathlib

/-!
Verification development for the trivia-board game engine of the
`srgorla/trailhead` repository.

The engine exists in three near-identical front ends:
  * `force-app/main/default/lwc/jeopardyGame/jeopardyGame.js` (static board),
  * `scripts/Jeaopardy_Claude/jeopardy_game_standalone.tsx` (static board),
  * `scripts/Jeaopardy_Claude/jeopardy_ai_version.tsx` (generated board).

The component-local mutable fields (`gameState`, `numTeams`, `teams`,
`currentTeam`, `selectedQuestion`, `showAnswer`, `answeredQuestions`,
`categories`) are gathered into one `Session` record, and each event
handler becomes a function from `Session` to `Session` (or `Option Session`
where the JavaScript would throw a `TypeError`).  JavaScript numbers that
only ever hold integers are modelled as `Int`/`Nat`; the `Set` of answered
question keys is modelled as a duplicate-free `List String` with
membership-guarded insertion, matching `Set.has`/`Set.add`.
-/

namespace Trailhead

set_option maxRecDepth 16384

/-- A team, as created by `startGame`: `{ name: `Team ${i+1}`, score: 0, id: i }`.
(The React variants omit the `id` field; it is inert data.) -/
structure Team where
  name : String
  score : Int
  id : Nat
deriving Repr, DecidableEq

/-- One question of the board: `{ value, question, answer }` plus the
`answered` flag that `jeopardyGame.js`'s `handleAnswer` stamps onto the
question object (`{ ...q, answered: true }`); absent in the initial data,
where the JavaScript `undefined` is falsy, so it is modelled as `false`. -/
structure Question where
  value : Int
  question : String
  answer : String
  answered : Bool := false
deriving Repr, DecidableEq

/-- A category: `{ name, questions }`. -/
structure Category where
  name : String
  questions : List Question
deriving Repr, DecidableEq

/-- The in-flight selection stored by `handleQuestionClick`:
`{ categoryIndex, questionIndex, key }`. -/
structure Selection where
  categoryIndex : Nat
  questionIndex : Nat
  key : String
deriving Repr, DecidableEq

/-- The `gameState` field: 'setup', 'generating' (AI variant only), 'playing'. -/
inductive GameState where
  | setup
  | generating
  | playing
deriving Repr, DecidableEq

/-- The component state gathered into one record. -/
structure Session where
  gameState : GameState
  numTeams : Nat
  teams : List Team
  currentTeam : Nat
  selectedQuestion : Option Selection
  showAnswer : Bool
  answeredQuestions : List String
  categories : List Category
deriving Repr, DecidableEq

/-- Replace the element at index `i` (a list analogue of the JavaScript
`categories[ci].questions[qi] = { ...q, answered: true }` in-place update);
out-of-range indices leave the list unchanged, as the assignment would
extend/ignore rather than be reached in that case. -/
def modifyAt {α : Type} : List α → Nat → (α → α) → List α
  | [], _, _ => []
  | a :: as, 0, f => f a :: as
  | a :: as, n + 1, f => a :: modifyAt as n f

/-- The question key `` `${categoryIndex}-${questionIndex}` `` (equal to the
`id` strings `'0-0'`, …, `'4-4'` carried by the LWC board data). -/
def keyOf (c q : Nat) : String := toString c ++ "-" ++ toString q

/-- `Set.add` on the answered-question keys: JavaScript `Set` insertion is a
no-op on an element already present. -/
def addKey (l : List String) (k : String) : List String :=
  if l.contains k then l else l ++ [k]

/-- The result of JavaScript `parseInt(raw) || 1`: `parseInt` yields `NaN`
(modelled `none`) on non-numeric input, and `NaN` and `0` are both falsy,
so both coerce to `1`. -/
def parseIntOr1 : Option Int → Int
  | none => 1
  | some n => if n = 0 then 1 else n

/-- `handleTeamChange` (`jeopardyGame.js` line 41, identically the `onChange`
handler of both React variants):
`numTeams = Math.max(1, Math.min(6, parseInt(value) || 1))`. -/
def handleTeamChange (s : Session) (raw : Option Int) : Session :=
  { s with numTeams := (max 1 (min 6 (parseIntOr1 raw))).toNat }

/-- The roster built by `startGame`:
`Array.from({ length: n }, (_, i) => ({ name: `Team ${i+1}`, score: 0, id: i }))`. -/
def makeTeams (n : Nat) : List Team :=
  (List.range n).map (fun i => { name := "Team " ++ toString (i + 1), score := 0, id := i })

/-- The hardcoded board installed by `initializeCategories`
(`jeopardyGame.js` lines 56-114; the standalone React variant embeds the
same 5 × 5 data). Apostrophes in the source strings are written `\x27`. -/
def staticCategories : List Category :=
  [ { name := "Science",
      questions :=
        [ { value := 200, question := "This planet is known as the Red Planet", answer := "What is Mars?" },
          { value := 400, question := "H2O is the chemical formula for this substance", answer := "What is water?" },
          { value := 600, question := "This force keeps us grounded on Earth", answer := "What is gravity?" },
          { value := 800, question := "The human body has this many bones", answer := "What is 206?" },
          { value := 1000, question := "This is the speed of light in meters per second", answer := "What is 299,792,458?" } ] },
    { name := "History",
      questions :=
        [ { value := 200, question := "This war ended in 1945", answer := "What is World War II?" },
          { value := 400, question := "The Declaration of Independence was signed in this year", answer := "What is 1776?" },
          { value := 600, question := "This ancient wonder is located in Egypt", answer := "What are the Pyramids (of Giza)?" },
          { value := 800, question := "This empire was ruled by Julius Caesar", answer := "What is the Roman Empire?" },
          { value := 1000, question := "The Berlin Wall fell in this year", answer := "What is 1989?" } ] },
    { name := "Geography",
      questions :=
        [ { value := 200, question := "This is the largest ocean on Earth", answer := "What is the Pacific Ocean?" },
          { value := 400, question := "This country has the most population", answer := "What is India (or China)?" },
          { value := 600, question := "This is the capital of Australia", answer := "What is Canberra?" },
          { value := 800, question := "This river is the longest in the world", answer := "What is the Nile?" },
          { value := 1000, question := "This is the smallest country in the world", answer := "What is Vatican City?" } ] },
    { name := "Pop Culture",
      questions :=
        [ { value := 200, question := "This streaming service created \x27Stranger Things\x27", answer := "What is Netflix?" },
          { value := 400, question := "This artist painted the Mona Lisa", answer := "Who is Leonardo da Vinci?" },
          { value := 600, question := "This band had hits with \x27Hey Jude\x27 and \x27Let It Be\x27", answer := "Who are The Beatles?" },
          { value := 800, question := "This superhero is also known as Bruce Wayne", answer := "Who is Batman?" },
          { value := 1000, question := "This director created \x27Jurassic Park\x27 and \x27E.T.\x27", answer := "Who is Steven Spielberg?" } ] },
    { name := "EWS",
      questions :=
        [ { value := 200, question := "In the 1990s, EWS focused on this type of risk management", answer := "What is Deposit Risk Management?" },
          { value := 400, question := "This service was launched in 2001-05 as an account opening service-based offering", answer := "What is Identity Chek?" },
          { value := 600, question := "PPS was spun out of this company as a fully bank-owned company in 2006-09", answer := "What is First Data?" },
          { value := 800, question := "In 2013-15, this company was acquired, expanding EWS\x27s reach in mobile authentication", answer := "What is Payfone?" },
          { value := 1000, question := "This brand was launched in August 2024 to deliver a new merchant checkout experience", answer := "What is Paze?" } ] } ]

/-- `startGame` of the static variants (`jeopardyGame.js` lines 44-54):
build the roster from `numTeams`, reset the turn and the answered set,
install the hardcoded board and enter `'playing'`. -/
def startGame (s : Session) : Session :=
  { s with
    teams := makeTeams s.numTeams,
    currentTeam := 0,
    answeredQuestions := [],
    categories := staticCategories,
    gameState := GameState.playing }

/-- `handleQuestionClick` (`jeopardyGame.js` lines 116-127, identically the
React variants' `handleQuestionClick`): guard on
`!answeredQuestions.has(key)`; when already answered nothing at all runs. -/
def handleQuestionClick (s : Session) (c q : Nat) : Session :=
  let key := keyOf c q
  if s.answeredQuestions.contains key then s
  else { s with selectedQuestion := some ⟨c, q, key⟩, showAnswer := false }

/-- `handleShowAnswer` / the Show Answer button: `showAnswer = true`. -/
def handleShowAnswer (s : Session) : Session :=
  { s with showAnswer := true }

/-- `handleKeyPress` (`jeopardyGame.js` lines 21-26, identically the React
variants): `if (key === 'Escape' && selectedQuestion) { selectedQuestion = null;
showAnswer = false; }`. -/
def handleKeyPress (s : Session) (key : String) : Session :=
  if key = "Escape" ∧ s.selectedQuestion.isSome then
    { s with selectedQuestion := none, showAnswer := false }
  else s

/-- `handleAnswer(isCorrect)` (`jeopardyGame.js` lines 141-166; the React
variants are the same minus the `answered` stamp on the question model).
The JavaScript dereferences `this.selectedQuestion` and then
`categories[ci].questions[qi].value` unconditionally, and on a correct
answer `teams[currentTeam].score`; each dereference of `undefined`/`null`
would throw a `TypeError`, modelled by returning `none`.  Otherwise:
score delta iff correct, stamp `answered: true`, add the key to the set,
clear selection, hide the answer, and advance the turn
`(currentTeam + 1) % teams.length`.

`scoreIfCorrect` names the score-delta step (`jeopardyGame.js` lines
145-147): on a correct answer `teams[currentTeam].score += value`
(dereferencing an out-of-range `teams[currentTeam]` would throw, hence
`none`); on a wrong answer the roster is untouched. -/
def scoreIfCorrect (teams : List Team) (i : Nat) (isCorrect : Bool) (v : Int) :
    Option (List Team) :=
  if isCorrect then
    match teams[i]? with
    | none => none
    | some t => some (teams.set i { t with score := t.score + v })
  else some teams

def handleAnswer (s : Session) (isCorrect : Bool) : Option Session :=
  match s.selectedQuestion with
  | none => none
  | some sel =>
    match s.categories[sel.categoryIndex]? with
    | none => none
    | some cat =>
      match cat.questions[sel.questionIndex]? with
      | none => none
      | some qu =>
        match scoreIfCorrect s.teams s.currentTeam isCorrect qu.value with
        | none => none
        | some teams2 =>
          some { s with
            teams := teams2,
            categories := modifyAt s.categories sel.categoryIndex
              (fun cat2 =>
                { cat2 with
                  questions := modifyAt cat2.questions sel.questionIndex (fun q2 => { q2 with answered := true }) }),
            answeredQuestions := addKey s.answeredQuestions sel.key,
            selectedQuestion := none,
            showAnswer := false,
            currentTeam := (s.currentTeam + 1) % s.teams.length }

/-- `resetGame` (`jeopardyGame.js` lines 172-180): back to `'setup'`,
discarding teams, turn, answered set, selection and board. -/
def resetGame (s : Session) : Session :=
  { s with
    gameState := GameState.setup,
    teams := [],
    currentTeam := 0,
    answeredQuestions := [],
    selectedQuestion := none,
    showAnswer := false,
    categories := [] }

/-- The value lookup `categories[ci].questions[qi].value` for the current
selection, defined exactly when a question is selected with both indices in
range of the installed board. -/
def selectedValue (s : Session) : Option Int :=
  match s.selectedQuestion with
  | none => none
  | some sel =>
    match s.categories[sel.categoryIndex]? with
    | none => none
    | some cat =>
      match cat.questions[sel.questionIndex]? with
      | none => none
      | some qu => some qu.value

/-- The component's initial field values (`gameState = 'setup'`,
`numTeams = 2`, everything else empty). -/
def initialSession : Session :=
  { gameState := GameState.setup,
    numTeams := 2,
    teams := [],
    currentTeam := 0,
    selectedQuestion := none,
    showAnswer := false,
    answeredQuestions := [],
    categories := [] }

/-- A concrete session: three teams requested, static game started. -/
def demoSession : Session := startGame (handleTeamChange initialSession (some 3))

/-- The demo session with question (0,0) (Science for 200) selected. -/
def demoSelected : Session := handleQuestionClick demoSession 0 0

/-- The demo session after resolving (0,0) as correct. -/
def demoResolved : Session := (handleAnswer demoSelected true).getD initialSession

/-- Inversion for the score-delta step. -/
theorem scoreIfCorrect_eq_some (teams : List Team) (i : Nat) (b : Bool) (v : Int)
    (out : List Team) (h : scoreIfCorrect teams i b v = some out) :
    (b = false ∧ out = teams) ∨
      (b = true ∧ ∃ t0, teams[i]? = some t0 ∧
        out = teams.set i { t0 with score := t0.score + v }) := by
  cases b with
  | false =>
    unfold scoreIfCorrect at h
    simp only [Bool.false_eq_true, if_false] at h
    cases h
    exact Or.inl ⟨rfl, rfl⟩
  | true =>
    unfold scoreIfCorrect at h
    simp only [if_true] at h
    split at h
    · exact absurd h (by simp)
    rename_i t0 ht
    cases h
    exact Or.inr ⟨rfl, t0, ht, rfl⟩

/-- Everything `handleAnswer` does, by inversion on a successful run. -/
theorem handleAnswer_inversion (s : Session) (b : Bool) (s2 : Session)
    (h : handleAnswer s b = some s2) :
    ∃ sel cat qu, s.selectedQuestion = some sel ∧
      s.categories[sel.categoryIndex]? = some cat ∧
      cat.questions[sel.questionIndex]? = some qu ∧
      selectedValue s = some qu.value ∧
      ((b = false ∧ s2.teams = s.teams) ∨
        (b = true ∧ ∃ t0, s.teams[s.currentTeam]? = some t0 ∧
          s2.teams = s.teams.set s.currentTeam { t0 with score := t0.score + qu.value })) ∧
      s2.currentTeam = (s.currentTeam + 1) % s.teams.length ∧
      s2.selectedQuestion = none ∧
      s2.showAnswer = false ∧
      s2.answeredQuestions = addKey s.answeredQuestions sel.key ∧
      s2.gameState = s.gameState ∧
      s2.numTeams = s.numTeams := by
  unfold handleAnswer at h
  split at h
  · exact absurd h (by simp)
  rename_i sel hsel
  split at h
  · exact absurd h (by simp)
  rename_i cat hcat
  split at h
  · exact absurd h (by simp)
  rename_i qu hqu
  split at h
  · exact absurd h (by simp)
  rename_i teams2 hscored
  cases h
  refine ⟨sel, cat, qu, hsel, hcat, hqu, ?_, ?_, rfl, rfl, rfl, rfl, rfl, rfl⟩
  · unfold selectedValue
    simp only [hsel, hcat, hqu]
  · exact scoreIfCorrect_eq_some s.teams s.currentTeam b qu.value teams2 hscored

/-- The score-delta effect of one resolution: nothing changes on a wrong
answer; on a correct answer exactly the team at `currentTeam` (taken at
resolution time) gains exactly the selected question's value. -/
def ScoringSpec (s : Session) (b : Bool) (s2 : Session) : Prop :=
  (b = false → s2.teams = s.teams) ∧
  (b = true → ∃ v t0, selectedValue s = some v ∧
    s.teams[s.currentTeam]? = some t0 ∧
    s2.teams = s.teams.set s.currentTeam { t0 with score := t0.score + v })

/-- No engine operation other than `handleAnswer` touches the roster
(hence no other operation mutates any score): selection, reveal, cancel and
team-count change leave the roster untouched, while `startGame` installs a
fresh zero-score roster and `resetGame` discards it (session creation and
disposal, not score mutation). -/
def NoOtherScoreMutation : Prop :=
  (∀ t : Session, ∀ c q : Nat, (handleQuestionClick t c q).teams = t.teams) ∧
  (∀ t : Session, (handleShowAnswer t).teams = t.teams) ∧
  (∀ t : Session, ∀ k : String, (handleKeyPress t k).teams = t.teams) ∧
  (∀ t : Session, ∀ raw : Option Int, (handleTeamChange t raw).teams = t.teams) ∧
  (∀ t : Session, (startGame t).teams = makeTeams t.numTeams) ∧
  (∀ t : Session, (resetGame t).teams = [])

/-- Cancellation (the Escape handler) never moves the turn, whatever the key
and whether or not a question is selected. -/
def CancelKeepsTurn : Prop :=
  ∀ t : Session, ∀ k : String, (handleKeyPress t k).currentTeam = t.currentTeam

/-- Everything the cancel action does and does not touch. -/
def CancelSpec (s : Session) : Prop :=
  (handleKeyPress s "Escape").selectedQuestion = none ∧
  (handleKeyPress s "Escape").showAnswer = false ∧
  (handleKeyPress s "Escape").answeredQuestions = s.answeredQuestions ∧
  (handleKeyPress s "Escape").teams = s.teams ∧
  (handleKeyPress s "Escape").currentTeam = s.currentTeam ∧
  (handleKeyPress s "Escape").categories = s.categories ∧
  (handleKeyPress s "Escape").gameState = s.gameState ∧
  (handleKeyPress s "Escape").numTeams = s.numTeams

/-- Both indices of a selection are in range of the board `cats`. -/
def SelectionInRange (cats : List Category) (c q : Nat) : Prop :=
  ∃ cat, cats[c]? = some cat ∧ q < cat.questions.length

/-- After cancelling, the same question can be selected again, and the
re-selected question can be resolved whenever its indices are in range. -/
def ReSelectable (s : Session) (sel : Selection) : Prop :=
  s.answeredQuestions.contains (keyOf sel.categoryIndex sel.questionIndex) = false →
    (handleQuestionClick (handleKeyPress s "Escape") sel.categoryIndex
        sel.questionIndex).selectedQuestion =
      some ⟨sel.categoryIndex, sel.questionIndex, keyOf sel.categoryIndex sel.questionIndex⟩ ∧
    (s.currentTeam < s.teams.length →
      ∀ b, (handleAnswer (handleQuestionClick (handleKeyPress s "Escape")
          sel.categoryIndex sel.questionIndex) b).isSome ↔
        SelectionInRange s.categories sel.categoryIndex sel.questionIndex)

/-- Definedness of the resolution operation: undefined on a null selection,
and (for a session whose turn index is in range, the standing data-model
invariant) defined exactly when the selection's value lookup is. -/
def ResolutionDefinedSpec (s : Session) : Prop :=
  (s.selectedQuestion = none → ∀ b, handleAnswer s b = none) ∧
  (∀ b, (handleAnswer s b).isSome ↔ (selectedValue s).isSome) ∧
  (∀ b s2, handleAnswer s b = some s2 → ∃ v, selectedValue s = some v)

/-- The score-delta step succeeds whenever the team index is in range. -/
theorem scoreIfCorrect_isSome (teams : List Team) (i : Nat) (b : Bool) (v : Int)
    (hct : i < teams.length) : (scoreIfCorrect teams i b v).isSome = true := by
  unfold scoreIfCorrect
  cases b with
  | false => simp
  | true => rw [if_pos rfl, List.getElem?_eq_getElem hct]; rfl

/-- Definedness of `handleAnswer` coincides with definedness of the value
lookup, provided the turn index is in range. -/
theorem handleAnswer_isSome_iff (s : Session) (b : Bool)
    (hct : s.currentTeam < s.teams.length) :
    (handleAnswer s b).isSome = true ↔ (selectedValue s).isSome = true := by
  unfold handleAnswer selectedValue
  cases hsel : s.selectedQuestion with
  | none => simp
  | some sel =>
    simp only [hsel]
    cases hcat : s.categories[sel.categoryIndex]? with
    | none => simp
    | some cat =>
      simp only [hcat]
      cases hqu : cat.questions[sel.questionIndex]? with
      | none => simp
      | some qu =>
        simp only [hqu]
        cases hsc : scoreIfCorrect s.teams s.currentTeam b qu.value with
        | none =>
          have := scoreIfCorrect_isSome s.teams s.currentTeam b qu.value hct
          rw [hsc] at this
          exact absurd this (by simp)
        | some t2 => simp

/-- The value lookup is defined exactly when the selection's indices are in
range of the installed board. -/
theorem selectedValue_isSome_iff (s : Session) (sel : Selection)
    (h : s.selectedQuestion = some sel) :
    (selectedValue s).isSome = true ↔
      SelectionInRange s.categories sel.categoryIndex sel.questionIndex := by
  unfold selectedValue SelectionInRange
  simp only [h]
  cases hcat : s.categories[sel.categoryIndex]? with
  | none => simp
  | some cat =>
    simp only [hcat]
    cases hqu : cat.questions[sel.questionIndex]? with
    | none =>
      have hlen : ¬ sel.questionIndex < cat.questions.length := by
        intro hlt
        rw [List.getElem?_eq_getElem hlt] at hqu
        cases hqu
      simp [hlen]
    | some qu =>
      have hlen : sel.questionIndex < cat.questions.length := by
        by_contra hge
        rw [List.getElem?_eq_none (by omega)] at hqu
        cases hqu
      simp [hqu, hlen]

/-- C4: for every raw requested team count (out-of-range and non-numeric
input included), the setup path stores exactly `clamp(n, 1, 6)` with
non-numeric input coercing to 1, and `startGame` builds exactly that many
teams, named sequentially `Team 1`, `Team 2`, … with every score 0.  All
functions involved are total, so there is no error path. -/
theorem gameSetup_clamp_spec (s : Session) (raw : Option Int) :
    (handleTeamChange s raw).numTeams =
      (match raw with
        | none => 1
        | some k => (max 1 (min 6 k)).toNat) ∧
    (startGame (handleTeamChange s raw)).teams =
      makeTeams (handleTeamChange s raw).numTeams ∧
    1 ≤ (handleTeamChange s raw).numTeams ∧
    (handleTeamChange s raw).numTeams ≤ 6 ∧
    (∀ n : Nat, (makeTeams n).length = n ∧
      (makeTeams n).map Team.score = List.replicate n 0 ∧
      (makeTeams n).map Team.name =
        (List.range n).map (fun i => "Team " ++ toString (i + 1))) := by
  refine ⟨?_, rfl, ?_, ?_, ?_⟩
  · unfold handleTeamChange parseIntOr1
    cases raw with
    | none => rfl
    | some k =>
      simp only []
      split <;> omega
  · unfold handleTeamChange parseIntOr1
    cases raw with
    | none => simp
    | some k =>
      simp only []
      split <;> omega
  · unfold handleTeamChange parseIntOr1
    cases raw with
    | none => simp
    | some k =>
      simp only []
      split <;> omega
  · intro n
    refine ⟨by simp [makeTeams], ?_, ?_⟩
    · simp only [makeTeams, List.map_map]
      rw [show (Team.score ∘ fun i : Nat =>
          ({ name := "Team " ++ toString (i + 1), score := 0, id := i } : Team)) =
        (fun _ : Nat => (0 : Int)) from rfl]
      rw [List.map_const', List.length_range]
    · simp only [makeTeams, List.map_map]
      rfl

/-- C4 witness: a requested count of 99 clamps to 6 zero-score teams. -/
theorem gameSetup_clamp_witness :
    (handleTeamChange initialSession (some 99)).numTeams = 6 ∧
    (makeTeams 6).map Team.score = List.replicate 6 0 := by
  have h := gameSetup_clamp_spec initialSession (some 99)
  exact ⟨h.1.trans (by decide), (h.2.2.2.2 6).2.1⟩

/-- C5: on a resolved question the score changes iff the resolution is
correct, and then exactly the team at `currentTeam` (read at resolution
time) gains exactly the question's value; no other engine operation mutates
any score. -/
theorem scoring_resolution_spec (s : Session) (b : Bool) (s2 : Session)
    (h : handleAnswer s b = some s2) :
    ScoringSpec s b s2 ∧ NoOtherScoreMutation := by
  obtain ⟨sel, cat, qu, hsel, hcat, hqu, hv, hteams, -⟩ :=
    handleAnswer_inversion s b s2 h
  constructor
  · constructor
    · intro hb
      rcases hteams with ⟨-, ht⟩ | ⟨hb2, -⟩
      · exact ht
      · rw [hb] at hb2; cases hb2
    · intro hb
      rcases hteams with ⟨hb2, -⟩ | ⟨-, t0, ht0, hset⟩
      · rw [hb] at hb2; cases hb2
      · exact ⟨qu.value, t0, hv, ht0, hset⟩
  · refine ⟨?_, fun t => rfl, ?_, fun t raw => rfl, fun t => rfl, fun t => rfl⟩
    · intro t c q
      unfold handleQuestionClick
      dsimp only
      split <;> rfl
    · intro t k
      unfold handleKeyPress
      split <;> rfl

/-- C5 witness at a concrete resolution in the demo session. -/
theorem scoring_resolution_witness :
    handleAnswer demoSelected true = some demoResolved ∧
    ScoringSpec demoSelected true demoResolved ∧ NoOtherScoreMutation := by
  have h := scoring_resolution_spec demoSelected true demoResolved rfl
  exact ⟨rfl, h.1, h.2⟩

/-- C6: after every resolution, correct or not, the turn becomes
`(currentTeam + 1) % teams.length`, and cancellation never changes the
turn. -/
theorem turn_rotation_spec (s : Session) (b : Bool) (s2 : Session)
    (h : handleAnswer s b = some s2) :
    s2.currentTeam = (s.currentTeam + 1) % s.teams.length ∧ CancelKeepsTurn := by
  obtain ⟨-, -, -, -, -, -, -, -, hturn, -⟩ := handleAnswer_inversion s b s2 h
  refine ⟨hturn, ?_⟩
  intro t k
  unfold handleKeyPress
  split <;> rfl

/-- C6 witness: resolving the demo selection (wrong answer) advances the
turn from 0 to 1 of 3. -/
theorem turn_rotation_witness :
    handleAnswer demoSelected false = some ((handleAnswer demoSelected false).getD initialSession) ∧
    ((handleAnswer demoSelected false).getD initialSession).currentTeam =
      (demoSelected.currentTeam + 1) % demoSelected.teams.length ∧
    CancelKeepsTurn := by
  have h := turn_rotation_spec demoSelected false
    ((handleAnswer demoSelected false).getD initialSession) rfl
  exact ⟨rfl, h.1, h.2⟩

/-- C7: clicking a question whose key is already in the answered set is a
silent no-op: the entire session state is returned unchanged. -/
theorem select_answered_is_noop (s : Session) (c q : Nat)
    (h : s.answeredQuestions.contains (keyOf c q) = true) :
    handleQuestionClick s c q = s := by
  unfold handleQuestionClick
  dsimp only
  rw [if_pos h]

/-- C7 witness: re-clicking the already-resolved question (0,0). -/
theorem select_answered_witness :
    demoResolved.answeredQuestions.contains (keyOf 0 0) = true ∧
    handleQuestionClick demoResolved 0 0 = demoResolved :=
  ⟨rfl, select_answered_is_noop demoResolved 0 0 rfl⟩

/-- C8: from a state with a selected question (answer revealed or not), the
cancel action clears the selection and resets `showAnswer`, leaves the
answered set, roster, scores, turn, board, game state and team count
untouched, and the question can be selected and resolved again. -/
theorem cancel_returns_to_unanswered (s : Session) (sel : Selection)
    (h : s.selectedQuestion = some sel) :
    CancelSpec s ∧ ReSelectable s sel := by
  have hcond : ("Escape" : String) = "Escape" ∧ s.selectedQuestion.isSome = true :=
    ⟨rfl, by rw [h]; rfl⟩
  have hkp : handleKeyPress s "Escape" =
      { s with selectedQuestion := none, showAnswer := false } := by
    unfold handleKeyPress
    rw [if_pos hcond]
  constructor
  · rw [CancelSpec, hkp]
    exact ⟨rfl, rfl, rfl, rfl, rfl, rfl, rfl, rfl⟩
  · intro hna
    have hclick : handleQuestionClick (handleKeyPress s "Escape")
        sel.categoryIndex sel.questionIndex =
        { s with
          selectedQuestion :=
            some ⟨sel.categoryIndex, sel.questionIndex,
              keyOf sel.categoryIndex sel.questionIndex⟩,
          showAnswer := false } := by
      rw [hkp]
      unfold handleQuestionClick
      dsimp only
      rw [if_neg (by rw [hna]; simp)]
    refine ⟨by rw [hclick], ?_⟩
    intro hct b
    rw [hclick]
    refine (handleAnswer_isSome_iff _ b ?_).trans
      (selectedValue_isSome_iff _
        ⟨sel.categoryIndex, sel.questionIndex,
          keyOf sel.categoryIndex sel.questionIndex⟩ rfl)
    exact hct

/-- C8 witness at the demo selection. -/
theorem cancel_witness :
    demoSelected.selectedQuestion = some ⟨0, 0, keyOf 0 0⟩ ∧
    CancelSpec demoSelected ∧ ReSelectable demoSelected ⟨0, 0, keyOf 0 0⟩ := by
  have h := cancel_returns_to_unanswered demoSelected ⟨0, 0, keyOf 0 0⟩ rfl
  exact ⟨rfl, h.1, h.2⟩

/-- C10: resolution is undefined on a null selection (the code dereferences
it unconditionally) and, for a session whose turn index is in range (the
standing invariant), is defined exactly when a question is selected with
both indices in range of the installed board. -/
theorem resolution_definedness (s : Session)
    (hct : s.currentTeam < s.teams.length) : ResolutionDefinedSpec s := by
  refine ⟨?_, fun b => handleAnswer_isSome_iff s b hct, ?_⟩
  · intro hnone b
    unfold handleAnswer
    rw [hnone]
  · intro b s2 h
    obtain ⟨-, -, qu, -, -, -, hv, -⟩ := handleAnswer_inversion s b s2 h
    exact ⟨qu.value, hv⟩

/-- C10 witness at the demo selection. -/
theorem resolution_definedness_witness :
    demoSelected.currentTeam < demoSelected.teams.length ∧
    ResolutionDefinedSpec demoSelected :=
  ⟨by decide, resolution_definedness demoSelected (by decide)⟩

/-- The discrete inputs the engine reacts to. -/
inductive GameOp where
  | teamChange (raw : Option Int)
  | start
  | select (c q : Nat)
  | reveal
  | resolve (correct : Bool)
  | keypress (key : String)
  | reset

/-- One engine transition; `resolve` is partial exactly where the
JavaScript would throw. -/
def step (s : Session) : GameOp → Option Session
  | GameOp.teamChange raw => some (handleTeamChange s raw)
  | GameOp.start => some (startGame s)
  | GameOp.select c q => some (handleQuestionClick s c q)
  | GameOp.reveal => some (handleShowAnswer s)
  | GameOp.resolve b => handleAnswer s b
  | GameOp.keypress k => some (handleKeyPress s k)
  | GameOp.reset => some (resetGame s)

/-- The data-model invariant: whenever the roster is non-empty, the turn
index is in range. -/
def TeamIndexInvariant (s : Session) : Prop :=
  s.teams ≠ [] → s.currentTeam < s.teams.length

/-- Sessions reachable from the initial component state by any sequence of
engine operations. -/
inductive Reachable : Session → Prop where
  | init : Reachable initialSession
  | next (s s2 : Session) (op : GameOp) :
      Reachable s → step s op = some s2 → Reachable s2

/-- Selecting a question never touches the roster or the turn. -/
theorem handleQuestionClick_frame (s : Session) (c q : Nat) :
    (handleQuestionClick s c q).teams = s.teams ∧
    (handleQuestionClick s c q).currentTeam = s.currentTeam := by
  unfold handleQuestionClick
  dsimp only
  split <;> exact ⟨rfl, rfl⟩

/-- The Escape handler never touches the roster or the turn. -/
theorem handleKeyPress_frame (s : Session) (k : String) :
    (handleKeyPress s k).teams = s.teams ∧
    (handleKeyPress s k).currentTeam = s.currentTeam := by
  unfold handleKeyPress
  split <;> exact ⟨rfl, rfl⟩

/-- C9: every reachable session satisfies the turn-index invariant; every
operation preserves it. -/
theorem team_index_invariant_reachable (s : Session) (h : Reachable s) :
    TeamIndexInvariant s := by
  induction h with
  | init =>
    intro hne
    exact absurd rfl hne
  | next s s2 op hr hstep ih =>
    cases op with
    | teamChange raw =>
      cases hstep
      intro hne
      exact ih hne
    | start =>
      cases hstep
      intro hne
      unfold startGame at hne ⊢
      dsimp only at hne ⊢
      have : (makeTeams s.numTeams).length ≠ 0 := by
        intro h0
        exact hne (List.eq_nil_of_length_eq_zero h0)
      omega
    | select c q =>
      cases hstep
      intro hne
      rw [(handleQuestionClick_frame s c q).1] at hne
      rw [(handleQuestionClick_frame s c q).1, (handleQuestionClick_frame s c q).2]
      exact ih hne
    | reveal =>
      cases hstep
      intro hne
      exact ih hne
    | resolve b =>
      obtain ⟨sel, cat, qu, -, -, -, -, hteams, hturn, -⟩ :=
        handleAnswer_inversion s b s2 hstep
      intro hne
      have hlen : s2.teams.length = s.teams.length := by
        rcases hteams with ⟨-, ht⟩ | ⟨-, t0, -, hset⟩
        · rw [ht]
        · rw [hset, List.length_set]
      have hpos : 0 < s.teams.length := by
        have : s2.teams.length ≠ 0 := by
          intro h0
          exact hne (List.eq_nil_of_length_eq_zero h0)
        omega
      rw [hturn, hlen]
      exact Nat.mod_lt _ hpos
    | keypress k =>
      cases hstep
      intro hne
      rw [(handleKeyPress_frame s k).1] at hne
      rw [(handleKeyPress_frame s k).1, (handleKeyPress_frame s k).2]
      exact ih hne
    | reset =>
      cases hstep
      intro hne
      exact absurd rfl hne

/-- C9 witness: the invariant at the one-step-reachable started session. -/
theorem team_index_invariant_witness :
    step initialSession GameOp.start = some (startGame initialSession) ∧
    TeamIndexInvariant (startGame initialSession) :=
  ⟨rfl, team_index_invariant_reachable (startGame initialSession)
    (Reachable.next initialSession (startGame initialSession) GameOp.start
      Reachable.init rfl)⟩

/-!
The generative variant (`jeopardy_ai_version.tsx`).  `generateQuestions`
reads the response's `content` array, takes the first block of type
`"text"`, scans its text with the greedy regex match of line 80 (`\x7b`
then any characters then `\x7d`), runs `JSON.parse` on the match and
installs `parsedData.categories` with no further validation; every thrown
error is caught by one handler that alerts a fixed message and returns the
session to `'setup'`.
-/

/-- The suffix of `cs` starting at its last `\x7d` — reverse, drop the
characters after the last close brace, reverse back. -/
def takeToLastClose (cs : List Char) : List Char :=
  (cs.reverse.dropWhile (fun d => d != '\x7d')).reverse

/-- The greedy regex match of `jeopardy_ai_version.tsx` line 80: the match
starts at the first `\x7b` that has some `\x7d` after it and extends
greedily to the last `\x7d` of the text; `none` when no such pair exists
(in which case line 86 throws). -/
def jsonMatch : List Char → Option (List Char)
  | [] => none
  | c :: rest =>
    if c = '\x7b' ∧ '\x7d' ∈ rest then some (c :: takeToLastClose rest)
    else jsonMatch rest

/-- Declarative characterization of the greedy match: `m` is a contiguous
slice of `cs`, it opens with `\x7b` and closes with `\x7d`, no `\x7b`
occurs before it and no `\x7d` after it. -/
def GreedyMatchSpec (cs m : List Char) : Prop :=
  ∃ pre mid post, cs = pre ++ m ++ post ∧ m = '\x7b' :: mid ++ ['\x7d'] ∧
    '\x7b' ∉ pre ∧ '\x7d' ∉ post

/-- Modelled from the spec's words, for comparison with the code's
`jsonMatch`: locate the first balanced `\x7b...\x7d` object substring by
brace-depth counting from the first `\x7b`. -/
def balancedFrom : List Char → Nat → List Char → Option (List Char)
  | [], _, _ => none
  | c :: rest, depth, acc =>
    if c = '\x7b' then balancedFrom rest (depth + 1) (c :: acc)
    else if c = '\x7d' then
      if depth = 1 then some ((c :: acc).reverse)
      else balancedFrom rest (depth - 1) (c :: acc)
    else balancedFrom rest depth (c :: acc)

/-- Modelled from the spec's words (the claimed behaviour, not the code's):
the first balanced `\x7b...\x7d` JSON object substring of the payload. -/
def specFirstBalancedObject (cs : List Char) : Option (List Char) :=
  match cs.dropWhile (fun c => c != '\x7b') with
  | [] => none
  | c :: rest => balancedFrom rest 1 [c]

/-- dropWhile skips a prefix on which the predicate holds everywhere. -/
theorem dropWhile_append_all {p : Char → Bool} (l1 l2 : List Char)
    (h : ∀ x ∈ l1, p x = true) : (l1 ++ l2).dropWhile p = l2.dropWhile p := by
  induction l1 with
  | nil => rfl
  | cons a t ih =>
    rw [List.cons_append, List.dropWhile_cons_of_pos (h a (by simp))]
    exact ih (fun x hx => h x (by simp [hx]))

/-- Computing `takeToLastClose` on a decomposed list whose tail holds no
close brace. -/
theorem takeToLastClose_append (mid post : List Char) (hpost : '\x7d' ∉ post) :
    takeToLastClose ((mid ++ ['\x7d']) ++ post) = mid ++ ['\x7d'] := by
  unfold takeToLastClose
  rw [List.reverse_append, List.reverse_append]
  rw [show (['\x7d'] : List Char).reverse = ['\x7d'] from rfl]
  rw [List.singleton_append]
  rw [dropWhile_append_all post.reverse _ (by
    intro x hx
    have hxp : x ∈ post := List.mem_reverse.mp hx
    have hne : x ≠ '\x7d' := fun he => hpost (he ▸ hxp)
    simpa using hne)]
  rw [List.dropWhile_cons_of_neg (by simp)]
  simp

/-- The first element surviving `dropWhile` falsifies the predicate. -/
theorem head_dropWhile_false {p : Char → Bool} :
    ∀ (l : List Char) (d : Char) (t : List Char), l.dropWhile p = d :: t → p d = false := by
  intro l
  induction l with
  | nil => intro d t h; cases h
  | cons a l2 ih =>
    intro d t h
    by_cases hp : p a = true
    · rw [List.dropWhile_cons_of_pos hp] at h
      exact ih d t h
    · rw [List.dropWhile_cons_of_neg hp] at h
      cases h
      simpa using hp

/-- Any list containing a close brace splits at its last close brace, and
`takeToLastClose` returns everything up to that point. -/
theorem exists_takeToLastClose (rest : List Char) (h : '\x7d' ∈ rest) :
    ∃ mid post, rest = (mid ++ ['\x7d']) ++ post ∧ '\x7d' ∉ post ∧
      takeToLastClose rest = mid ++ ['\x7d'] := by
  have hne : rest.reverse.dropWhile (fun d => d != '\x7d') ≠ [] := by
    intro h0
    rw [List.dropWhile_eq_nil_iff] at h0
    have := h0 '\x7d' (List.mem_reverse.mpr h)
    simp at this
  cases hdw : rest.reverse.dropWhile (fun d => d != '\x7d') with
  | nil => exact absurd hdw hne
  | cons d t =>
    have hd : d = '\x7d' := by
      have := head_dropWhile_false rest.reverse d t hdw
      simpa using this
    refine ⟨t.reverse, (rest.reverse.takeWhile (fun d => d != '\x7d')).reverse, ?_, ?_, ?_⟩
    · conv_lhs => rw [← List.reverse_reverse rest,
        ← List.takeWhile_append_dropWhile (p := fun d => d != '\x7d') (l := rest.reverse)]
      rw [hdw, hd, List.reverse_append, List.reverse_cons]
    · intro hmem
      have := List.mem_takeWhile_imp (List.mem_reverse.mp hmem)
      simp at this
    · unfold takeToLastClose
      rw [hdw, hd, List.reverse_cons]

/-- C2 (amended) core lemma: `jsonMatch` returns `some m` exactly when `m`
is the slice of the payload from its first open brace (provided a close
brace follows somewhere) to its last close brace. -/
theorem jsonMatch_eq_some_iff (cs m : List Char) :
    jsonMatch cs = some m ↔ GreedyMatchSpec cs m := by
  induction cs generalizing m with
  | nil =>
    constructor
    · intro h; cases h
    · rintro ⟨pre, mid, post, heq, hm, -, -⟩
      rw [hm] at heq
      simp at heq
  | cons c rest ih =>
    by_cases h : c = '\x7b' ∧ '\x7d' ∈ rest
    · rw [jsonMatch, if_pos h]
      constructor
      · intro hsome
        injection hsome with hm
        obtain ⟨mid, post, hrest, hpost, httlc⟩ := exists_takeToLastClose rest h.2
        refine ⟨[], mid, post, ?_, ?_, by simp, hpost⟩
        · rw [List.nil_append, ← hm, httlc, hrest, h.1]
          simp
        · rw [← hm, httlc, h.1]
          simp
      · rintro ⟨pre, mid, post, heq, hm, hpre, hpost⟩
        cases pre with
        | cons p0 pre2 =>
          exfalso
          apply hpre
          have hc : c = p0 := by
            have := congrArg List.head? heq
            simpa using this
          rw [← hc, h.1]
          exact List.mem_cons_self _ _
        | nil =>
          rw [hm] at heq
          simp only [List.nil_append, List.cons_append, List.append_assoc] at heq
          obtain ⟨-, hrest⟩ := List.cons.inj heq
          rw [hm, h.1, hrest]
          rw [show mid ++ '\x7d' :: post = (mid ++ ['\x7d']) ++ post by simp]
          rw [takeToLastClose_append mid post hpost]
          simp
    · rw [jsonMatch, if_neg h]
      rw [ih]
      by_cases hc : c = '\x7b'
      · have hnb : '\x7d' ∉ rest := fun hmem => h ⟨hc, hmem⟩
        constructor
        · rintro ⟨pre, mid, post, heq, hm, hpre, hpost⟩
          exfalso
          apply hnb
          rw [heq, hm]
          simp
        · rintro ⟨pre, mid, post, heq, hm, hpre, hpost⟩
          exfalso
          apply hnb
          have hmemc : '\x7d' ∈ c :: rest := by
            rw [heq, hm]
            simp
          rcases List.mem_cons.mp hmemc with he | hmem
          · rw [hc] at he; cases he
          · exact hmem
      · constructor
        · rintro ⟨pre, mid, post, heq, hm, hpre, hpost⟩
          refine ⟨c :: pre, mid, post, by simp [heq], hm, ?_, hpost⟩
          intro hmem
          rcases List.mem_cons.mp hmem with he | hmem2
          · exact hc he.symm
          · exact hpre hmem2
        · rintro ⟨pre, mid, post, heq, hm, hpre, hpost⟩
          cases pre with
          | nil =>
            exfalso
            apply hc
            rw [hm] at heq
            have := congrArg List.head? heq
            simpa using this
          | cons p0 pre2 =>
            obtain ⟨hc0, hrest⟩ := List.cons.inj heq
            refine ⟨pre2, mid, post, hrest, hm, ?_, hpost⟩
            intro hmem
            exact hpre (List.mem_cons.mpr (Or.inr hmem))

/-- Parsed JSON values, for modelling `JSON.parse` of the matched block. -/
inductive Json where
  | null
  | bool (b : Bool)
  | num (n : Int)
  | str (s : String)
  | arr (elems : List Json)
  | obj (fields : List (String × Json))

/-- Parsing mode: a single value, the members of an object (after the
opening brace, first member expected), or the elements of an array. -/
inductive PMode where
  | value
  | members
  | elems

/-- Intermediate parse results for the three modes. -/
inductive PRes where
  | v (j : Json)
  | fields (fs : List (String × Json))
  | elements (es : List Json)

/-- Skip JSON whitespace. -/
def skipWs (cs : List Char) : List Char :=
  cs.dropWhile (fun c => c == ' ' || c == '\n' || c == '\t' || c == '\r')

/-- A string literal body after the opening quote (escape-free, as in all
generation payloads). -/
def parseStringBody (cs : List Char) : Option (String × List Char) :=
  let content := cs.takeWhile (fun c => c != '"')
  match cs.drop content.length with
  | '"' :: r => some (content.asString, r)
  | _ => none

/-- A run of decimal digits as a natural number. -/
def parseNatDigits (cs : List Char) : Option (Nat × List Char) :=
  let ds := cs.takeWhile Char.isDigit
  if ds.isEmpty then none
  else some (ds.foldl (fun acc c => acc * 10 + (c.toNat - 48)) 0, cs.drop ds.length)

/-- An integer literal (optional minus sign). -/
def parseNumberLit (cs : List Char) : Option (Int × List Char) :=
  match cs with
  | '-' :: r => (parseNatDigits r).map (fun p => (-(p.1 : Int), p.2))
  | _ => (parseNatDigits cs).map (fun p => ((p.1 : Int), p.2))

/-- Strip an expected keyword tail. -/
def stripChars : List Char → List Char → Option (List Char)
  | [], cs => some cs
  | k :: ks, c :: cs => if c = k then stripChars ks cs else none
  | _ :: _, [] => none

/-- Recursive-descent JSON parsing, structural in a fuel argument (one
function over the three modes so that the kernel can evaluate it).  Models
`JSON.parse` on the grammar the generation payloads use: objects, arrays,
escape-free strings, integers, `true`/`false`/`null`. -/
def parseAny : Nat → PMode → List Char → Option (PRes × List Char)
  | 0, _, _ => none
  | fuel + 1, PMode.value, cs =>
    match skipWs cs with
    | [] => none
    | c :: r =>
      if c = '"' then (parseStringBody r).map (fun p => (PRes.v (Json.str p.1), p.2))
      else if c = '\x7b' then
        match skipWs r with
        | '\x7d' :: r2 => some (PRes.v (Json.obj []), r2)
        | r2 =>
          match parseAny fuel PMode.members r2 with
          | some (PRes.fields fs, r3) => some (PRes.v (Json.obj fs), r3)
          | _ => none
      else if c = '[' then
        match skipWs r with
        | ']' :: r2 => some (PRes.v (Json.arr []), r2)
        | r2 =>
          match parseAny fuel PMode.elems r2 with
          | some (PRes.elements es, r3) => some (PRes.v (Json.arr es), r3)
          | _ => none
      else if c = 't' then
        (stripChars ['r', 'u', 'e'] r).map (fun r2 => (PRes.v (Json.bool true), r2))
      else if c = 'f' then
        (stripChars ['a', 'l', 's', 'e'] r).map (fun r2 => (PRes.v (Json.bool false), r2))
      else if c = 'n' then
        (stripChars ['u', 'l', 'l'] r).map (fun r2 => (PRes.v Json.null, r2))
      else (parseNumberLit (c :: r)).map (fun p => (PRes.v (Json.num p.1), p.2))
  | fuel + 1, PMode.members, cs =>
    match skipWs cs with
    | '"' :: r =>
      match parseStringBody r with
      | none => none
      | some (key, r2) =>
        match skipWs r2 with
        | ':' :: r3 =>
          match parseAny fuel PMode.value r3 with
          | some (PRes.v v, r4) =>
            (match skipWs r4 with
             | ',' :: r5 =>
               match parseAny fuel PMode.members r5 with
               | some (PRes.fields fs, r6) => some (PRes.fields ((key, v) :: fs), r6)
               | _ => none
             | '\x7d' :: r5 => some (PRes.fields [(key, v)], r5)
             | _ => none)
          | _ => none
        | _ => none
    | _ => none
  | fuel + 1, PMode.elems, cs =>
    match parseAny fuel PMode.value cs with
    | some (PRes.v v, r) =>
      (match skipWs r with
       | ',' :: r2 =>
         match parseAny fuel PMode.elems r2 with
         | some (PRes.elements es, r3) => some (PRes.elements (v :: es), r3)
         | _ => none
       | ']' :: r2 => some (PRes.elements [v], r2)
       | _ => none)
    | _ => none

/-- `JSON.parse`: parse one value and require only whitespace after it
(`JSON.parse` rejects trailing text, which matters for the greedy match). -/
def parseJson (cs : List Char) : Option Json :=
  match parseAny (cs.length + 1) PMode.value cs with
  | some (PRes.v j, rest) => if (skipWs rest).isEmpty then some j else none
  | _ => none

/-- One block of the response's `content` array. -/
structure ContentBlock where
  type : String
  text : String

/-- The observable outcome of the `fetch` + `response.json()` prelude:
either a thrown error (network failure, or a non-2xx/invalid body whose
JSON has no `content` array, so that `data.content.find` throws), or the
`content` array itself.  The code never checks `response.ok`, so a non-2xx
response surfaces only through one of these throws. -/
inductive FetchOutcome where
  | netError
  | noContentArray
  | ok (blocks : List ContentBlock)

/-- `data.content.find(block => block.type === "text")?.text || ""`. -/
def extractText (blocks : List ContentBlock) : String :=
  match blocks.find? (fun b => b.type == "text") with
  | some b => b.text
  | none => ""

/-- JavaScript property access `j[key]` on a parsed JSON value:
`undefined` (here `none`) on a missing key or a non-object. -/
def jsonField (j : Json) (key : String) : Option Json :=
  match j with
  | Json.obj fields => (fields.find? (fun p => p.1 == key)).map Prod.snd
  | _ => none

/-- Duck-typed read of a string-valued property; a missing or non-string
value is JavaScript `undefined`, modelled by the empty string (the source
stores the raw value and only a later render would throw). -/
def decodeStr : Option Json → String
  | some (Json.str s) => s
  | _ => ""

/-- Duck-typed read of a numeric property (missing or non-numeric modelled
as 0, see `decodeStr`). -/
def decodeNum : Option Json → Int
  | some (Json.num n) => n
  | _ => 0

/-- One parsed question object, exactly as the playing view reads it:
`q.value`, `q.question`, `q.answer` — no emptiness or type validation. -/
def decodeQuestion (j : Json) : Question :=
  { value := decodeNum (jsonField j "value"),
    question := decodeStr (jsonField j "question"),
    answer := decodeStr (jsonField j "answer") }

/-- One parsed category object: `category.name`, `category.questions` —
no length-5 validation. -/
def decodeCategory (j : Json) : Category :=
  { name := decodeStr (jsonField j "name"),
    questions :=
      match jsonField j "questions" with
      | some (Json.arr xs) => xs.map decodeQuestion
      | _ => [] }

/-- `setCategories(parsedData.categories)`: the raw `categories` value is
installed as the board with no count, length or emptiness checks (a missing
or non-array value is stored as-is by the source; modelled as the empty
board). -/
def decodeCategories : Option Json → List Category
  | some (Json.arr xs) => xs.map decodeCategory
  | _ => []

/-- The single human-readable error surfaced by the catch handler
(`jeopardy_ai_version.tsx` line 90). -/
def alertMsg : String := "Failed to generate questions. Please try again."

/-- The parse stage of `generateQuestions`: greedy match, then
`JSON.parse`; `none` exactly when line 86 throws or `JSON.parse` throws. -/
def extractedJson (blocks : List ContentBlock) : Option Json :=
  match jsonMatch (extractText blocks).toList with
  | none => none
  | some m => parseJson m

/-- `generateQuestions` (`jeopardy_ai_version.tsx` lines 27-95) as a
transition on the session, returning the alert message when the catch
handler runs.  The transient `'generating'` state and `isGenerating`
spinner flag are set at entry and resolved by the same call, so only the
final state is observable here.  On success the parsed `categories` value
is installed unvalidated and the state becomes `'playing'`; on any throw
the state returns to `'setup'` with the fixed alert. -/
def generateQuestions (outcome : FetchOutcome) (s : Session) :
    Session × Option String :=
  match outcome with
  | FetchOutcome.netError => ({ s with gameState := GameState.setup }, some alertMsg)
  | FetchOutcome.noContentArray => ({ s with gameState := GameState.setup }, some alertMsg)
  | FetchOutcome.ok blocks =>
    match extractedJson blocks with
    | none => ({ s with gameState := GameState.setup }, some alertMsg)
    | some j =>
      ({ s with
          categories := decodeCategories (jsonField j "categories"),
          gameState := GameState.playing }, none)

/-- `startGame` of the AI variant (`jeopardy_ai_version.tsx` lines 97-106):
build the roster, reset turn and answered set, then await
`generateQuestions`. -/
def startGameAI (s : Session) (outcome : FetchOutcome) : Session × Option String :=
  generateQuestions outcome
    { s with teams := makeTeams s.numTeams, currentTeam := 0, answeredQuestions := [] }

/-- The generation call fails (the catch handler runs) iff the fetch
prelude throws or no parseable JSON block is found. -/
def GenFails (outcome : FetchOutcome) : Prop :=
  match outcome with
  | FetchOutcome.netError => True
  | FetchOutcome.noContentArray => True
  | FetchOutcome.ok blocks => extractedJson blocks = none

/-- A well-formed question object in JSON text. -/
def qJson : List Char :=
  '\x7b' :: "\"value\":200,\"question\":\"q\",\"answer\":\"a\"".toList ++ ['\x7d']

/-- A category object in JSON text with exactly one question (not five). -/
def catJson (name : String) : List Char :=
  '\x7b' :: ("\"name\":\"" ++ name ++ "\",\"questions\":[").toList ++ qJson ++ [']', '\x7d']

/-- A generation payload whose embedded JSON parses but violates the
schema: 4 categories (not 5), each with 1 question (not 5), with
commentary before and after the object. -/
def content4 : List Char :=
  "Here you go: ".toList ++
  ('\x7b' :: "\"categories\":[".toList) ++
  catJson "A" ++ ',' :: catJson "B" ++ ',' :: catJson "C" ++ ',' :: catJson "D" ++
  (']' :: '\x7d' :: " Enjoy".toList)

/-- The response carrying `content4` as its text block. -/
def blocks4 : List ContentBlock := [{ type := "text", text := content4.asString }]

/-- The parsed JSON of `content4`. -/
def json4 : Json := (extractedJson blocks4).getD Json.null

/-- A payload whose first balanced object is `\x7b\x7d` but whose trailing
commentary contains another close brace, so the greedy match is longer. -/
def exPayload : List Char := ['\x7b', '\x7d', ' ', '\x7d']

/-- A session with three teams requested, still in setup. -/
def setup3 : Session := handleTeamChange initialSession (some 3)

/-- C1 counterexample: a generation response whose embedded JSON has only
4 categories of 1 question each is not rejected — the partial board is
installed, the session enters `'playing'`, and no error is surfaced. -/
theorem generation_installs_four_categories :
    (generateQuestions (FetchOutcome.ok blocks4) initialSession).1.gameState =
      GameState.playing ∧
    ((generateQuestions (FetchOutcome.ok blocks4) initialSession).1.categories).length = 4 ∧
    ((generateQuestions (FetchOutcome.ok blocks4) initialSession).1.categories).map
      (fun c => c.questions.length) = [1, 1, 1, 1] ∧
    (generateQuestions (FetchOutcome.ok blocks4) initialSession).2 = none :=
  ⟨rfl, rfl, rfl, rfl⟩

/-- C1 (amended): the provider performs no schema validation at all — any
response whose greedy-matched block `JSON.parse`s successfully installs its
raw `categories` value as the board and enters `'playing'` with no error,
whatever the number of categories or questions and whatever the field
contents; only a missing block or a parse failure is rejected. -/
theorem generation_no_schema_validation (blocks : List ContentBlock)
    (s : Session) (j : Json) (h : extractedJson blocks = some j) :
    (generateQuestions (FetchOutcome.ok blocks) s).1.gameState = GameState.playing ∧
    (generateQuestions (FetchOutcome.ok blocks) s).1.categories =
      decodeCategories (jsonField j "categories") ∧
    (generateQuestions (FetchOutcome.ok blocks) s).2 = none := by
  simp [generateQuestions, h]

/-- C1 witness at the concrete 4-category payload. -/
theorem generation_no_schema_validation_witness :
    extractedJson blocks4 = some json4 ∧
    (generateQuestions (FetchOutcome.ok blocks4) initialSession).1.categories =
      decodeCategories (jsonField json4 "categories") ∧
    (generateQuestions (FetchOutcome.ok blocks4) initialSession).2 = none := by
  have h := generation_no_schema_validation blocks4 initialSession json4 rfl
  exact ⟨rfl, h.2.1, h.2.2⟩

/-- C2 counterexample: on `exPayload` the code's greedy match differs from
the first balanced object substring; the first balanced object exists and
parses, yet the provider reaches the failure outcome because the greedy
match has trailing text that `JSON.parse` rejects. -/
theorem greedy_not_first_balanced :
    jsonMatch exPayload ≠ specFirstBalancedObject exPayload ∧
    specFirstBalancedObject exPayload = some ['\x7b', '\x7d'] ∧
    (parseJson ['\x7b', '\x7d']).isSome = true ∧
    (generateQuestions (FetchOutcome.ok [⟨"text", exPayload.asString⟩])
      initialSession).2 = some alertMsg :=
  ⟨by decide, rfl, rfl, rfl⟩

/-- C2 (amended): the extraction is the greedy slice from the first open
brace (provided some close brace follows) to the last close brace of the
payload — not the first balanced object — and when no such pair exists the
single failure outcome results. -/
theorem jsonMatch_greedy_spec :
    (∀ cs m, jsonMatch cs = some m ↔ GreedyMatchSpec cs m) ∧
    (∀ blocks : List ContentBlock, ∀ s : Session,
      jsonMatch (extractText blocks).toList = none →
        generateQuestions (FetchOutcome.ok blocks) s =
          ({ s with gameState := GameState.setup }, some alertMsg)) := by
  refine ⟨jsonMatch_eq_some_iff, ?_⟩
  intro blocks s h
  simp only [generateQuestions, extractedJson, h]

/-- C2 witness: the characterization and the failure branch at concrete
inputs. -/
theorem jsonMatch_greedy_spec_witness :
    GreedyMatchSpec ['\x7b', '\x7d'] ['\x7b', '\x7d'] ∧
    generateQuestions (FetchOutcome.ok [⟨"text", "no braces here"⟩]) initialSession =
      ({ initialSession with gameState := GameState.setup }, some alertMsg) := by
  have h := jsonMatch_greedy_spec
  exact ⟨(h.1 ['\x7b', '\x7d'] ['\x7b', '\x7d']).mp rfl, h.2 _ initialSession rfl⟩

/-- C3 counterexample: after a failed generative start the session is back
in `'setup'` with the alert surfaced, but the roster built by `startGame`
before the call is retained — partial session state from the aborted start
survives. -/
theorem failure_retains_roster :
    (startGameAI setup3 FetchOutcome.netError).1.gameState = GameState.setup ∧
    (startGameAI setup3 FetchOutcome.netError).2 = some alertMsg ∧
    (startGameAI setup3 FetchOutcome.netError).1.teams = makeTeams 3 ∧
    makeTeams 3 ≠ [] :=
  ⟨rfl, rfl, rfl, by decide⟩

/-- C3 (amended): on every generation failure that throws (network error,
missing `content` array, missing JSON block, parse failure — schema
mismatch does not fail, see C1) the session returns to `'setup'`, the one
fixed human-readable alert is surfaced, and no board is installed; but the
roster, turn reset and cleared answered set written by `startGame` before
the call remain in place. -/
theorem generation_failure_spec (s : Session) (outcome : FetchOutcome)
    (h : GenFails outcome) :
    (startGameAI s outcome).1.gameState = GameState.setup ∧
    (startGameAI s outcome).2 = some alertMsg ∧
    (startGameAI s outcome).1.categories = s.categories ∧
    (startGameAI s outcome).1.teams = makeTeams s.numTeams ∧
    (startGameAI s outcome).1.currentTeam = 0 ∧
    (startGameAI s outcome).1.answeredQuestions = [] ∧
    (startGameAI s outcome).1.selectedQuestion = s.selectedQuestion ∧
    (startGameAI s outcome).1.showAnswer = s.showAnswer := by
  cases outcome with
  | netError => exact ⟨rfl, rfl, rfl, rfl, rfl, rfl, rfl, rfl⟩
  | noContentArray => exact ⟨rfl, rfl, rfl, rfl, rfl, rfl, rfl, rfl⟩
  | ok blocks =>
    unfold GenFails at h
    unfold startGameAI
    simp [generateQuestions, h]

/-- C3 witness at a concrete failing start. -/
theorem generation_failure_witness :
    GenFails FetchOutcome.netError ∧
    (startGameAI setup3 FetchOutcome.netError).1.gameState = GameState.setup ∧
    (startGameAI setup3 FetchOutcome.netError).2 = some alertMsg ∧
    (startGameAI setup3 FetchOutcome.netError).1.teams = makeTeams setup3.numTeams := by
  have h := generation_failure_spec setup3 FetchOutcome.netError trivial
  exact ⟨trivial, h.1, h.2.1, h.2.2.2.1⟩

end Trailhead
